import Mathlib

/-!
Verification development for the plugin-generation workflow
(`plugin_generator.py`, `directory_detector.py`, `utils.py`).

The Python code is shallowly embedded as executable Lean definitions:

* Pure helpers (`sanitize_plugin_name`, `create_plugin_directory`,
  preview rendering) become pure functions on `String`/`List Char`.
* The orchestrator (`generate_plugin_flow`, `continue_plugin_generation`)
  becomes a pure function threading an explicit `FlowState`
  (generation status, pending proposal slot, file system as a set of
  paths) and emitting a trace of observable calls (`Call`).
* All fallible collaborators (the LLM backend, the installer, the
  directory resolver) are an `Env` of call outcomes: `Except String α`
  models a Python call that either returns or raises.  Review results
  are modelled after the `normalize_review_result` step (integer score,
  boolean approval), since every normalized shape is representable.
* The unbounded `while` review loop is embedded with an explicit fuel
  parameter; `none` means the loop did not terminate within the fuel.
* `event.send(...)` is modelled as a trace entry and never raises.
-/

/-! ### Characters and `sanitize_plugin_name` (utils.py) -/

/-- Python `re.sub(r'[^a-zA-Z0-9_]', '', name)` keeps exactly these ASCII
characters. -/
def keepChar (c : Char) : Bool :=
  (97 ≤ c.toNat && c.toNat ≤ 122) || (65 ≤ c.toNat && c.toNat ≤ 90) ||
  (48 ≤ c.toNat && c.toNat ≤ 57) || c.toNat == 95

/-- Python `str.isalpha` restricted to the ASCII characters that survive the
filter above. -/
def isAsciiLetter (c : Char) : Bool :=
  (97 ≤ c.toNat && c.toNat ≤ 122) || (65 ≤ c.toNat && c.toNat ≤ 90)

/-- Python `str.lower` on one ASCII character. -/
def pyLower (c : Char) : Char :=
  if 65 ≤ c.toNat && c.toNat ≤ 90 then Char.ofNat (c.toNat + 32) else c

/-- `sanitize_plugin_name` from utils.py: strip disallowed characters, put a
`plugin_` token in front when the head is not a letter, lower-case, and fall
back to `unnamed_plugin` when everything got stripped. -/
def sanitize_plugin_name (name : String) : String :=
  let s0 := name.data.filter keepChar
  let s1 := match s0 with
    | [] => ([] : List Char)
    | c :: _ => if !isAsciiLetter c then "plugin_".data ++ s0 else s0
  let s2 := s1.map pyLower
  if s2.isEmpty then "unnamed_plugin" else String.mk s2

/-- One character of the regex class `[a-z0-9_]`. -/
def isIdentChar (c : Char) : Bool :=
  (97 ≤ c.toNat && c.toNat ≤ 122) || (48 ≤ c.toNat && c.toNat ≤ 57) ||
  c.toNat == 95

/-- Decides the spec's identifier shape `^[a-z][a-z0-9_]*$`. -/
def matchesIdent (s : String) : Bool :=
  match s.data with
  | [] => false
  | c :: rest => (97 ≤ c.toNat && c.toNat ≤ 122) && rest.all isIdentChar

/-! ### Small string helpers (kernel-reducible stand-ins for Python ops) -/

def startsWithL : List Char → List Char → Bool
  | _, [] => true
  | [], _ :: _ => false
  | c :: s, d :: p => c == d && startsWithL s p

/-- Python `str.startswith`. -/
def pyStartsWith (s p : String) : Bool := startsWithL s.data p.data

def isPySpace (c : Char) : Bool :=
  c == ' ' || c == '\t' || c == '\n' || c == '\r' || c == '\x0b' || c == '\x0c'

/-- Python `str.strip()`. -/
def pyStrip (s : String) : String :=
  String.mk (((s.data.dropWhile isPySpace).reverse.dropWhile isPySpace).reverse)

/-- Namespacing applied to a sanitized name (lines 208-209 and 423-424 of
plugin_generator.py). -/
def namespacedName (n : String) : String :=
  if pyStartsWith n "astrbot_plugin_" then n else "astrbot_plugin_" ++ n

/-! ### Data model -/

/-- The nested `metadata` sub-object of a plugin metadata dict (only the
parts the flow reads). -/
structure MetaSub where
  dependencies : List String := []
deriving DecidableEq

/-- A plugin metadata dict produced by the model, with the keys the
orchestrator reads.  `commands` is modelled after the key extraction of
`build_preview_text` as (name, description) pairs. -/
structure Metadata where
  name : Option String := none
  author : Option String := none
  descriptionText : Option String := none
  version : Option String := none
  commands : List (String × String) := []
  markdown : Option String := none
  sub : Option MetaSub := none
deriving DecidableEq

/-- `metadata.setdefault("metadata", {})`; the `commands` setdefault is a
no-op here because the field is total. -/
def setdefaultsMeta (m : Metadata) : Metadata :=
  { m with sub := some (m.sub.getD {}) }

/-- `self.generation_status` (the mutable fields plus `total_steps`; the
static `step_descriptions` list is `step_descriptions` below). -/
structure GenerationStatus where
  is_generating : Bool := false
  current_step : Nat := 0
  total_steps : Nat := 6
  progress_percentage : Nat := 0
  plugin_name : String := ""
  start_time : String := ""
deriving DecidableEq

/-- `self.pending_generation`; the conversation handle `event` is an opaque
number. -/
structure PendingGeneration where
  active : Bool := false
  metadata : Metadata := {}
  markdown : String := ""
  description : String := ""
  event : Option Nat := none
  timestamp : String := ""
deriving DecidableEq

/-- `clear_pending_generation` writes this record. -/
def emptyPending : PendingGeneration := {}

/-- The state the orchestrator mutates: status, the single pending slot, and
the file system as the set of existing paths. -/
structure FlowState where
  generation_status : GenerationStatus := {}
  pending_generation : PendingGeneration := {}
  fs : List String := []
deriving DecidableEq

/-- A review result after `normalize_review_result`. -/
structure Review where
  satisfaction_score : Int := 0
  approved : Bool := false
  reason : String := ""
  issues : List String := []
  suggestions : List String := []
deriving DecidableEq

/-- Result of `validate_directory_structure`. -/
structure DirValidation where
  valid : Bool := false
  issues : List String := []
deriving DecidableEq

/-- Result of `installer.install_plugin`. -/
structure InstallResult where
  success : Bool := false
  error : Option String := none
deriving DecidableEq

/-- Result of `installer.check_plugin_install_status`. -/
structure StatusCheck where
  has_errors : Bool := false
  error_logs : List String := []
deriving DecidableEq

/-- The dict returned by the flow; `none` models an absent key. -/
structure FlowResult where
  success : Bool := false
  error : Option String := none
  pending_confirmation : Bool := false
  plugin_name : Option String := none
  plugin_path : Option String := none
  satisfaction_score : Option Int := none
  installed : Option Bool := none
  install_success : Option Bool := none
  install_error : Option String := none
deriving DecidableEq

/-- Configuration switches read by the flow (`self.config.get(...)` with the
defaults used at each site). -/
structure Config where
  step_by_step : Bool := true
  auto_approve : Bool := false
  satisfaction_threshold : Int := 80
  strict_review : Bool := true
  max_retries : Int := 3
  allow_dependencies : Bool := true
  api_password_md5 : String := ""
deriving DecidableEq

/-- One observable external action of the flow. -/
inductive Call where
  | send (msg : String)
  | llmMeta
  | llmMarkdown
  | llmCode
  | llmReview
  | llmFix
  | llmOptimize
  | existsCheck (name : String) (found : Bool)
  | zipCreate
  | install
  | statusCheck
  | removeZip
deriving DecidableEq

/-- Outcomes of every fallible collaborator call: `.error e` is a Python
call raising with message `e`.  Streams (`reviewAttempts`, `fixes`) give the
outcome of the k-th such call in one flow invocation. -/
structure Env where
  dir_validation : DirValidation := {}
  plugins_dir : Option String := none
  installer_present : Bool := false
  now : String := ""
  genMeta : Except String (Option Metadata) := .ok none
  genMetaCombined : Except String (Option Metadata) := .ok none
  genMarkdown : Except String String := .ok ""
  genCode : Except String String := .ok ""
  reviewAttempts : Nat → Except String Review := fun _ => .ok {}
  fixes : Nat → Except String String := fun _ => .ok ""
  optimizeMeta : Except String (Option Metadata) := .ok none
  createZip : Except String (Option String) := .ok none
  installRes : Except String InstallResult := .ok {}
  statusCheck : Except String StatusCheck := .ok {}

/-! ### directory_detector.py -/

/-- `check_plugin_exists`: `false` when no plugins directory resolves,
otherwise an `os.path.exists` test on the namespaced name. -/
def check_plugin_exists (env : Env) (fs : List String) (plugin_name : String) : Bool :=
  match env.plugins_dir with
  | none => false
  | some d =>
    let pn := if pyStartsWith plugin_name "astrbot_plugin_" then plugin_name
              else "astrbot_plugin_" ++ plugin_name
    fs.contains (d ++ "/" ++ pn)

/-! ### utils.py `create_plugin_directory` and `_create_plugin_files` -/

/-- `create_plugin_directory` (utils.py): path of the created directory. -/
def create_plugin_directory (base : String) (plugin_name : String) : String :=
  let folder := if pyStartsWith plugin_name "astrbot_plugin_" then plugin_name
                else "astrbot_plugin_" ++ plugin_name
  base ++ "/" ++ folder

/-- `_create_plugin_files`: raises when no plugins directory resolves,
otherwise creates the artifact directory and its files and returns the
directory path together with the grown file system. -/
def createPluginFiles (env : Env) (cfg : Config) (fs : List String)
    (plugin_name : String) (metadata : Metadata) :
    Except String (String × List String) :=
  match env.plugins_dir with
  | none => .error "无法获取插件目录"
  | some base =>
    let dir := create_plugin_directory base plugin_name
    let deps := (metadata.sub.getD {}).dependencies
    let newPaths := dir :: (dir ++ "/main.py") :: (dir ++ "/metadata.yaml") ::
      ((if !deps.isEmpty && cfg.allow_dependencies then [dir ++ "/requirements.txt"] else [])
        ++ [dir ++ "/README.md"])
    .ok (dir, newPaths ++ fs)

/-! ### Status bookkeeping and messages -/

/-- `self.generation_status["step_descriptions"]`. -/
def step_descriptions : List String :=
  ["生成插件元数据", "生成插件文档", "生成配置文件", "生成插件代码", "代码审查与修复", "打包并安装插件"]

/-- Entry of `generate_plugin_flow` / resume: set the in-flight flag and the
start time. -/
def setGenerating (st : FlowState) (now : String) : FlowState :=
  { st with generation_status :=
      { st.generation_status with is_generating := true, start_time := now } }

/-- `_update_status(step, plugin_name)`. -/
def updateStatusF (st : FlowState) (step : Nat) (pname : String) : FlowState :=
  let g := st.generation_status
  let g := { g with current_step := step,
                    progress_percentage := step * 100 / g.total_steps }
  let g := if decide (pname = "") then g else { g with plugin_name := pname }
  { st with generation_status := g }

/-- The `finally` block of both flows: it resets exactly these four fields
(and in particular never clears `start_time`). -/
def resetStatusState (st : FlowState) : FlowState :=
  { st with generation_status :=
      { st.generation_status with is_generating := false, current_step := 0,
                                  progress_percentage := 0, plugin_name := "" } }

/-- The progress message sent after each `_update_status`. -/
def stepMsgS (st : FlowState) : String :=
  "步骤" ++ toString st.generation_status.current_step ++ "/" ++
  toString st.generation_status.total_steps ++ "：" ++
  step_descriptions.getD (st.generation_status.current_step - 1) ""

/-- A `{"success": False, "error": msg}` dict. -/
def failRes (msg : String) : FlowResult := { success := false, error := some msg }

/-- `build_preview_text` (identical local helper in both flows). -/
def build_preview_text (meta : Metadata) (markdown : String) : String :=
  let lines := ["插件名称：" ++ meta.name.getD "未知",
                "作者：" ++ meta.author.getD "未知",
                "描述：" ++ meta.descriptionText.getD "无描述",
                "版本：" ++ meta.version.getD "1.0.0"]
  let lines := if !meta.commands.isEmpty then
      lines ++ ["指令预览："] ++
        (meta.commands.take 5).map (fun c => "  - " ++ c.1 ++ ": " ++ c.2)
    else lines
  let dp := pyStrip markdown
  let lines := if !(decide (dp = "")) then
      lines ++ ["\nMarkdown文档预览：",
        String.mk (dp.data.take 400) ++ (if 400 < dp.data.length then "..." else "")]
    else lines
  String.intercalate "\n" lines

/-! ### Review retry machinery -/

/-- The default failing review returned when the inner retry loop of
`_review_code_with_retry` runs out without any successful call (the
post-loop fallback in the source). -/
def defaultFailReview : Review :=
  { satisfaction_score := 0, approved := false, reason := "代码审查失败",
    issues := ["代码审查失败"], suggestions := ["请检查代码并重试"] }

/-- The canned failing review built on the last failed inner attempt. -/
def cannedFailReview (e : String) : Review :=
  { satisfaction_score := 0, approved := false, reason := "代码审查失败：" ++ e,
    issues := ["代码审查失败"], suggestions := ["请检查代码并重试"] }

/-- `_review_code_with_retry`: up to `remaining` attempts starting at global
attempt index `k`; returns the review, the next attempt index, and the trace
of issued review calls. -/
def review_code_with_retry (env : Env) (k : Nat) : Nat → Review × Nat × List Call
  | 0 => (defaultFailReview, k, [])
  | Nat.succ r =>
    match env.reviewAttempts k with
    | .ok rev => (rev, k + 1, [.llmReview])
    | .error e =>
      if r = 0 then (cannedFailReview e, k + 1, [.llmReview])
      else
        let (rv, k', tr) := review_code_with_retry env (k + 1) r
        (rv, k', .llmReview :: tr)

/-- The `while` condition of the review loop (lines 285 and 543):
`((score < threshold) or (not approved)) and (unlimited_retry or retry_count < max_retries)`. -/
def reviewGuard (threshold maxRetries : Int) (unlimited : Bool) (j : Nat)
    (current : Review) : Bool :=
  (decide (current.satisfaction_score < threshold) || !current.approved) &&
  (unlimited || decide ((j : Int) < maxRetries))

/-- The success condition of the review phase: `score >= threshold AND approved`. -/
def reviewPasses (threshold : Int) (r : Review) : Bool :=
  decide (threshold ≤ r.satisfaction_score) && r.approved

/-- The fix-and-re-review `while` loop.  `k` is the next review-attempt
index, `j` the `retry_count` so far; the in-loop re-review calls the backend
directly (no inner retry), so a raise there surfaces as `.error`.  `none`
means the loop did not terminate within `fuel` iterations (possible only in
the unlimited case, given enough fuel). -/
def review_fix_loop (env : Env) (threshold maxRetries : Int) (strict unlimited : Bool) :
    Nat → Nat → Nat → Review → Option (Except String Review × List Call)
  | 0, _, j, current =>
    if reviewGuard threshold maxRetries unlimited j current then none
    else some (.ok current, [])
  | Nat.succ f, k, j, current =>
    if reviewGuard threshold maxRetries unlimited j current then
      let msg := if strict && !current.approved then
          "代码审查未通过，正在修复（第" ++ toString (j + 1) ++ "次重试）..."
        else
          "代码满意度不足（" ++ toString current.satisfaction_score ++
          "分），正在优化（第" ++ toString (j + 1) ++ "次重试）..."
      match env.fixes j with
      | .error e => some (.error e, [.send msg, .llmFix])
      | .ok _ =>
        match env.reviewAttempts k with
        | .error e => some (.error e, [.send msg, .llmFix, .llmReview])
        | .ok rv =>
          match review_fix_loop env threshold maxRetries strict unlimited f (k + 1) (j + 1) rv with
          | none => none
          | some (out, tr) => some (out, .send msg :: .llmFix :: .llmReview :: tr)
    else some (.ok current, [])

/-- The whole review phase (initial review through `_review_code_with_retry`
with its default of 3 inner attempts, then the fix loop).  This block is
duplicated verbatim in `generate_plugin_flow` and
`continue_plugin_generation` in the source; both flows below call this one
definition. -/
def reviewPhase (env : Env) (threshold maxRetries : Int) (strict : Bool)
    (fuel : Nat) : Option (Except String Review × List Call) :=
  match review_code_with_retry env 0 3 with
  | (rv0, k0, tr0) =>
    match review_fix_loop env threshold maxRetries strict (maxRetries == -1) fuel k0 0 rv0 with
    | none => none
    | some (out, tr1) => some (out, tr0 ++ tr1)

/-! ### The install block (lines 318-344 / 576-600) -/

/-- The `if self.installer and self.config.get("api_password_md5")` block.
Install failures only mutate the result dict; the file system (and so the
materialized artifact) is untouched. -/
def installPhase (env : Env) (cfg : Config) (result0 : FlowResult) :
    FlowResult × List Call :=
  if env.installer_present && !(decide (cfg.api_password_md5 = "")) then
    let tr := [Call.send "正在通过API安装插件..."]
    match env.createZip with
    | .error e => ({ result0 with install_error := some e },
                   tr ++ [.zipCreate, .send ("❌ 安装插件失败: " ++ e)])
    | .ok none => (result0, tr ++ [.zipCreate])
    | .ok (some _) =>
      let tr := tr ++ [Call.zipCreate]
      match env.installRes with
      | .error e => ({ result0 with install_error := some e },
                     tr ++ [.install, .send ("❌ 安装插件失败: " ++ e)])
      | .ok ir =>
        let r1 := { result0 with installed := some true, install_success := some ir.success }
        let tr := tr ++ [Call.install]
        if ir.success then
          let tr := tr ++ [Call.send "✅ 插件已通过API安装"]
          match env.statusCheck with
          | .error e => ({ r1 with install_error := some e },
                         tr ++ [.statusCheck, .send ("❌ 安装插件失败: " ++ e)])
          | .ok sc =>
            let tr := tr ++ [Call.statusCheck]
            let tr := if sc.has_errors then
                tr ++ [Call.send ("⚠️ 插件安装后检测到错误：\n" ++ String.intercalate "\n" sc.error_logs)]
              else tr
            (r1, tr ++ [.removeZip])
        else
          let r2 := { r1 with install_error := some (ir.error.getD "未知错误") }
          (r2, tr ++ [.send ("❌ 插件安装失败: " ++ (match ir.error with | some e => e | none => "None")),
                      .removeZip])
  else (result0, [])

/-! ### Stages 3-6 (shared tail of both flows) -/

/-- Steps 3-6: code synthesis, the review phase, materialization and the
optional install.  This is the common tail of `generate_plugin_flow`
(auto-approve continuation) and `continue_plugin_generation` (resume). -/
def codePhase (env : Env) (cfg : Config) (metadata : Metadata)
    (plugin_name : String) (st : FlowState) (tr : List Call) (fuel : Nat) :
    Option (FlowResult × FlowState × List Call) :=
  let st := updateStatusF st 3 plugin_name
  let tr := tr ++ [Call.send (stepMsgS st)]
  match env.genCode with
  | .error e => some (failRes ("生成插件代码失败：" ++ e), st, tr ++ [.llmCode])
  | .ok _ =>
    let tr := tr ++ [Call.llmCode]
    let st := updateStatusF st 4 plugin_name
    let tr := tr ++ [Call.send (stepMsgS st)]
    match reviewPhase env cfg.satisfaction_threshold cfg.max_retries cfg.strict_review fuel with
    | none => none
    | some (.error e, tr2) => some (failRes e, st, tr ++ tr2)
    | some (.ok rv, tr2) =>
      let tr := tr ++ tr2
      if decide (rv.satisfaction_score < cfg.satisfaction_threshold) || !rv.approved then
        some (failRes ("代码审查未通过：" ++ rv.reason), st, tr)
      else
        let tr := tr ++ [Call.send ("代码审查通过，满意度得分：" ++ toString rv.satisfaction_score ++ "分")]
        let st := updateStatusF st 5 plugin_name
        let tr := tr ++ [Call.send (stepMsgS st)]
        match createPluginFiles env cfg st.fs plugin_name metadata with
        | .error e => some (failRes e, st, tr)
        | .ok (p, fs') =>
          let st := { st with fs := fs' }
          let result0 : FlowResult :=
            { success := true, plugin_name := some plugin_name, plugin_path := some p,
              satisfaction_score := some rv.satisfaction_score, installed := some false }
          match installPhase env cfg result0 with
          | (res, tr3) => some (res, st, tr ++ tr3)

/-! ### generate_plugin_flow -/

/-- Stage DOC tail: preview, confirmation gate or auto-approve, then the
shared code phase. -/
def afterDoc (env : Env) (cfg : Config) (description : String) (event : Nat)
    (metadata : Metadata) (markdown_doc : String) (plugin_name : String)
    (st : FlowState) (tr : List Call) (fuel : Nat) :
    Option (FlowResult × FlowState × List Call) :=
  let metadata := { metadata with markdown := some markdown_doc }
  let tr := tr ++ [Call.send ("初步生成的插件方案：\n\n" ++ build_preview_text metadata markdown_doc)]
  if !cfg.auto_approve then
    let st := { st with pending_generation :=
      { active := true, metadata := metadata, markdown := markdown_doc,
        description := description, event := some event, timestamp := env.now } }
    some ({ success := false, error := some "等待用户确认", pending_confirmation := true },
          st,
          tr ++ [.send "请使用指令 \x27/同意生成\x27 确认生成，或 \x27/拒绝生成\x27 取消生成。"])
  else
    codePhase env cfg metadata plugin_name st
      (tr ++ [Call.send "根据配置已自动批准插件方案。"]) fuel

/-- The `try` body of `generate_plugin_flow` (directory validation, stages
META and DOC, then `afterDoc`). -/
def generate_try (env : Env) (cfg : Config) (description : String) (event : Nat)
    (st : FlowState) (fuel : Nat) : Option (FlowResult × FlowState × List Call) :=
  if !env.dir_validation.valid then
    let msg := "目录结构验证失败：" ++ String.intercalate "; " env.dir_validation.issues
    some (failRes msg, st, [.send msg])
  else
    let st := updateStatusF st 1 ""
    let tr := [Call.send (stepMsgS st)]
    match (if cfg.step_by_step then env.genMeta else env.genMetaCombined) with
    | .error e => some (failRes ("生成插件元数据失败：" ++ e), st, tr ++ [.llmMeta])
    | .ok none => some (failRes "LLM返回的插件元数据格式不正确", st, tr ++ [.llmMeta])
    | .ok (some md0) =>
      let tr := tr ++ [Call.llmMeta]
      let markdown0 := if cfg.step_by_step then "" else md0.markdown.getD ""
      let md1 := setdefaultsMeta md0
      let plugin_name := namespacedName (sanitize_plugin_name (md1.name.getD "astrbot_plugin_generated"))
      let md2 := { md1 with name := some plugin_name }
      let st := updateStatusF st 1 plugin_name
      let ex := check_plugin_exists env st.fs plugin_name
      let tr := tr ++ [Call.existsCheck plugin_name ex]
      if ex then
        let msg := "插件 \x27" ++ plugin_name ++ "\x27 已存在"
        some (failRes msg, st, tr ++ [.send msg])
      else
        let st := updateStatusF st 2 plugin_name
        let tr := tr ++ [Call.send (stepMsgS st)]
        if cfg.step_by_step || decide (markdown0 = "") then
          match env.genMarkdown with
          | .error e => some (failRes ("生成插件文档失败：" ++ e), st, tr ++ [.llmMarkdown])
          | .ok doc =>
            afterDoc env cfg description event md2 doc plugin_name st (tr ++ [.llmMarkdown]) fuel
        else
          afterDoc env cfg description event md2 markdown0 plugin_name st tr fuel

/-- `generate_plugin_flow`: busy guard, set the in-flight status, run the
`try` body, and reset the status in the `finally` block.  `none` is
non-termination of the unlimited review loop (the `finally` never runs
then). -/
def generate_plugin_flow (env : Env) (cfg : Config) (description : String)
    (event : Nat) (st : FlowState) (fuel : Nat) :
    Option (FlowResult × FlowState × List Call) :=
  if st.generation_status.is_generating then
    some ({ success := false, error := some "已有插件正在生成中，请稍后再试" }, st, [])
  else
    match generate_try env cfg description event (setGenerating st env.now) fuel with
    | none => none
    | some (res, st', tr) => some (res, resetStatusState st', tr)

/-! ### continue_plugin_generation -/

/-- The `try ... finally` resume part of `continue_plugin_generation`
(set status, recompute the namespaced name, then the shared code phase;
the `finally` resets the status). -/
def resumeGeneration (env : Env) (cfg : Config) (metadata : Metadata)
    (st : FlowState) (tr : List Call) (fuel : Nat) :
    Option (FlowResult × FlowState × List Call) :=
  let st := setGenerating st env.now
  let plugin_name := namespacedName (sanitize_plugin_name (metadata.name.getD "astrbot_plugin_generated"))
  let metadata := { metadata with name := some plugin_name }
  match codePhase env cfg metadata plugin_name st tr fuel with
  | none => none
  | some (res, st', tr') => some (res, resetStatusState st', tr')

/-- `continue_plugin_generation(approved, feedback)`: no-pending guard, read
and clear the single pending slot, reject or (optionally after a feedback
refinement with its own name re-sanitization and collision re-check) resume
the pipeline. -/
def continue_plugin_generation (env : Env) (cfg : Config) (approved : Bool)
    (feedback : String) (st : FlowState) (fuel : Nat) :
    Option (FlowResult × FlowState × List Call) :=
  if !st.pending_generation.active then
    some (failRes "没有待确认的插件生成任务", st, [])
  else
    let metadata := st.pending_generation.metadata
    let markdown_doc := st.pending_generation.markdown
    let st := { st with pending_generation := emptyPending }
    if !approved then
      some (failRes "用户取消了插件生成", st, [.send "用户取消了插件生成"])
    else
      if !(decide (feedback = "")) then
        let tr := [Call.send "正在根据您的反馈优化插件方案..."]
        match env.optimizeMeta with
        | .error e => some (failRes ("优化插件方案失败：" ++ e), st, tr ++ [.llmOptimize])
        | .ok none =>
          some (failRes "优化插件方案失败：LLM返回的优化结果格式不正确", st, tr ++ [.llmOptimize])
        | .ok (some m0) =>
          let m1 := setdefaultsMeta m0
          let markdown2 := m1.markdown.getD markdown_doc
          let pn := namespacedName (sanitize_plugin_name (m1.name.getD "generated_plugin"))
          let m2 := { m1 with name := some pn, markdown := some markdown2 }
          let tr := tr ++ [Call.llmOptimize]
          let ex := check_plugin_exists env st.fs pn
          let tr := tr ++ [Call.existsCheck pn ex]
          if ex then
            let msg := "插件 \x27" ++ pn ++ "\x27 已存在"
            some (failRes msg, st, tr ++ [.send msg])
          else
            let tr := tr ++ [Call.send ("优化后的插件方案：\n\n" ++ build_preview_text m2 markdown2)]
            resumeGeneration env cfg m2 st tr fuel
      else
        resumeGeneration env cfg metadata st [] fuel

/-! ### Trace counting -/

/-- Is this trace entry a review synthesis call? -/
def isRev : Call → Bool
  | .llmReview => true
  | _ => false

/-- Number of review synthesis calls in a trace. -/
def countR (l : List Call) : Nat := l.countP isRev

/-- Is this trace entry any model-backend synthesis call? -/
def isModelCall : Call → Bool
  | .llmMeta => true
  | .llmMarkdown => true
  | .llmCode => true
  | .llmReview => true
  | .llmFix => true
  | .llmOptimize => true
  | _ => false

/-! ### Concrete objects used by witnesses and counterexamples -/

def passReview : Review :=
  { satisfaction_score := 95, approved := true, reason := "好",
    issues := [], suggestions := [] }

def failingReview : Review :=
  { satisfaction_score := 50, approved := false, reason := "差",
    issues := ["i"], suggestions := ["s"] }

/-- A baseline environment in which every collaborator call succeeds. -/
def baseEnv : Env :=
  { dir_validation := { valid := true, issues := [] }
    plugins_dir := some "/data/plugins"
    installer_present := false
    now := "2024-01-01 00:00:00"
    genMeta := .ok (some { name := some "My Plugin!" })
    genMetaCombined := .ok (some { name := some "My Plugin!", markdown := some "doc" })
    genMarkdown := .ok "md"
    genCode := .ok "code"
    reviewAttempts := fun _ => .ok passReview
    fixes := fun _ => .ok "code2"
    optimizeMeta := .ok (some { name := some "opt" })
    createZip := .ok (some "/tmp/z.zip")
    installRes := .ok { success := true, error := none }
    statusCheck := .ok { has_errors := false, error_logs := [] } }

/-- Stubbed review stream whose first passing review is call index 1. -/
def wReviews (k : Nat) : Review := if k == 1 then passReview else failingReview

def envLoop : Env :=
  { baseEnv with reviewAttempts := fun k => .ok (wReviews k) }

/-- Environment whose in-loop re-review raises. -/
def envBoom : Env :=
  { baseEnv with reviewAttempts := fun k => if k == 0 then .ok failingReview else .error "boom" }

/-- Environment in which every review attempt raises. -/
def envAllRaise : Env :=
  { baseEnv with reviewAttempts := fun k => .error ("e" ++ toString k) }

/-- Environment without a resolvable plugins directory. -/
def envNoDir : Env := { baseEnv with plugins_dir := none }

/-- Environment failing directory validation. -/
def envDirInvalid : Env :=
  { baseEnv with dir_validation := { valid := false, issues := ["未找到AstrBot安装目录"] } }

/-- Environment whose installation call reports failure. -/
def envInstallFail : Env :=
  { baseEnv with installer_present := true,
                 installRes := .ok { success := false, error := some "bad zip" } }

def idleSt : FlowState := {}

/-- A state with an in-flight generation. -/
def stBusy : FlowState :=
  { generation_status := { is_generating := true, current_step := 2, total_steps := 6,
                           progress_percentage := 33, plugin_name := "x", start_time := "T0" } }

/-- A state with an active pending proposal. -/
def stPending : FlowState :=
  { pending_generation := { active := true, metadata := { name := some "old" },
                            markdown := "m", description := "olddesc",
                            event := some 3, timestamp := "t" } }

/-- A state in which `astrbot_plugin_myplugin` already exists on disk. -/
def stHasPlugin : FlowState :=
  { fs := ["/data/plugins/astrbot_plugin_myplugin"] }

def cfgDefault : Config := {}

def cfgAuto : Config := { auto_approve := true }

def cfgAutoInstall : Config := { auto_approve := true, api_password_md5 := "pw" }

/-- The "idle shape" of the spec: all five mutable fields cleared. -/
def statusIsIdleShape (g : GenerationStatus) : Bool :=
  !g.is_generating && g.current_step == 0 && g.progress_percentage == 0 &&
  g.plugin_name == "" && g.start_time == ""

/-! ## Theorems -/

theorem updateStatusF_fs (st : FlowState) (n : Nat) (p : String) :
    (updateStatusF st n p).fs = st.fs := rfl

theorem updateStatusF_pending (st : FlowState) (n : Nat) (p : String) :
    (updateStatusF st n p).pending_generation = st.pending_generation := rfl

theorem setGenerating_fs (st : FlowState) (now : String) :
    (setGenerating st now).fs = st.fs := rfl

theorem setGenerating_pending (st : FlowState) (now : String) :
    (setGenerating st now).pending_generation = st.pending_generation := rfl

theorem resetStatusState_fs (st : FlowState) : (resetStatusState st).fs = st.fs := rfl

theorem resetStatusState_pending (st : FlowState) :
    (resetStatusState st).pending_generation = st.pending_generation := rfl

theorem char_toNat_ofNat {n : Nat} (h : n < 55296) : (Char.ofNat n).toNat = n := by
  have hv : n.isValidChar := Or.inl h
  rw [Char.ofNat, dif_pos hv]
  rfl

theorem pyLower_ident {c : Char} (h : keepChar c = true) :
    isIdentChar (pyLower c) = true := by
  simp only [keepChar, Bool.or_eq_true, Bool.and_eq_true, decide_eq_true_eq,
    beq_iff_eq] at h
  by_cases hU : 65 ≤ c.toNat ∧ c.toNat ≤ 90
  · have hcond : (65 ≤ c.toNat && c.toNat ≤ 90) = true := by
      simp [hU.1, hU.2]
    have hlt : c.toNat + 32 < 55296 := by omega
    simp only [pyLower, hcond, if_true, isIdentChar, char_toNat_ofNat hlt,
      Bool.or_eq_true, Bool.and_eq_true, decide_eq_true_eq, beq_iff_eq]
    omega
  · have hcond : (65 ≤ c.toNat && c.toNat ≤ 90) = false := by
      rcases Nat.lt_or_ge c.toNat 65 with h1 | h1
      · simp; omega
      · simp; omega
    simp only [pyLower, hcond, Bool.false_eq_true, if_false, isIdentChar,
      Bool.or_eq_true, Bool.and_eq_true, decide_eq_true_eq, beq_iff_eq]
    omega

theorem pyLower_head {c : Char} (h : isAsciiLetter c = true) :
    97 ≤ (pyLower c).toNat ∧ (pyLower c).toNat ≤ 122 := by
  simp only [isAsciiLetter, Bool.or_eq_true, Bool.and_eq_true, decide_eq_true_eq] at h
  by_cases hU : 65 ≤ c.toNat ∧ c.toNat ≤ 90
  · have hcond : (65 ≤ c.toNat && c.toNat ≤ 90) = true := by
      simp [hU.1, hU.2]
    have hlt : c.toNat + 32 < 55296 := by omega
    simp only [pyLower, hcond, if_true, char_toNat_ofNat hlt]
    omega
  · have hcond : (65 ≤ c.toNat && c.toNat ≤ 90) = false := by
      rcases Nat.lt_or_ge c.toNat 65 with h1 | h1
      · simp; omega
      · simp; omega
    simp only [pyLower, hcond, Bool.false_eq_true, if_false]
    omega

/-- C9: `sanitize_plugin_name` strips every character outside `[A-Za-z0-9_]`,
gives a non-letter-initial remainder the fixed `plugin_` token, lower-cases
the result, falls back to the literal `unnamed_plugin` for fully-stripped
input, and so always returns a non-empty identifier matching
`^[a-z][a-z0-9_]*$`. -/
theorem sanitize_plugin_name_spec :
    (∀ name, matchesIdent (sanitize_plugin_name name) = true) ∧
    (∀ name, name.data.filter keepChar = [] →
       sanitize_plugin_name name = "unnamed_plugin") ∧
    (∀ name, sanitize_plugin_name name ≠ "") := by
  have main : ∀ name, matchesIdent (sanitize_plugin_name name) = true := by
    intro name
    cases h0 : name.data.filter keepChar with
    | nil => simp only [sanitize_plugin_name, h0]; decide
    | cons c t =>
      have hc : keepChar c = true :=
        List.of_mem_filter (h0 ▸ List.mem_cons_self c t)
      have ht : ∀ d ∈ t, keepChar d = true := fun d hd =>
        List.of_mem_filter (h0 ▸ List.mem_cons_of_mem c hd)
      have hall : ∀ x ∈ List.map pyLower t, isIdentChar x = true := by
        intro x hx
        rcases List.mem_map.mp hx with ⟨d, hd, rfl⟩
        exact pyLower_ident (ht d hd)
      cases hL : isAsciiLetter c with
      | true =>
        simp only [sanitize_plugin_name, h0, hL, Bool.not_true, Bool.false_eq_true,
          if_false, List.map_cons, List.isEmpty_cons, matchesIdent]
        rcases pyLower_head hL with ⟨h1, h2⟩
        simp only [Bool.and_eq_true, decide_eq_true_eq, List.all_eq_true]
        exact ⟨⟨h1, h2⟩, hall⟩
      | false =>
        have hmapfix : List.map pyLower "plugin_".data = "plugin_".data := by decide
        simp only [sanitize_plugin_name, h0, hL, Bool.not_false, if_true,
          List.map_append, hmapfix, List.map_cons]
        simp [matchesIdent, List.all_append, List.all_cons, List.all_eq_true,
          pyLower_ident hc, hall]
        exact ⟨by decide, by decide, by decide, by decide, by decide, by decide,
          fun x hx => pyLower_ident (ht x hx)⟩
  refine ⟨main, ?_, ?_⟩
  · intro name h0
    simp only [sanitize_plugin_name, h0]
    rfl
  · intro name hne
    have := main name
    rw [hne] at this
    simp [matchesIdent] at this

theorem sanitize_plugin_name_spec_witness :
    matchesIdent (sanitize_plugin_name "9My Plugin!") = true ∧
    sanitize_plugin_name "！！" = "unnamed_plugin" ∧
    sanitize_plugin_name "" ≠ "" :=
  ⟨sanitize_plugin_name_spec.1 "9My Plugin!",
   sanitize_plugin_name_spec.2.1 "！！" (by decide),
   sanitize_plugin_name_spec.2.2 ""⟩

/-- C2: when `is_generating` is already true, `generate_plugin_flow` returns
the busy failure immediately: the state (status, pending slot, file system)
is returned unchanged and the trace is empty, so no message is sent and no
model-backend call is made. -/
theorem generate_flow_busy_guard (env : Env) (cfg : Config) (description : String)
    (event : Nat) (st : FlowState) (fuel : Nat)
    (h : st.generation_status.is_generating = true) :
    generate_plugin_flow env cfg description event st fuel =
      some ({ success := false, error := some "已有插件正在生成中，请稍后再试" }, st, []) := by
  simp [generate_plugin_flow, h]

theorem generate_flow_busy_guard_witness :
    stBusy.generation_status.is_generating = true ∧
    generate_plugin_flow baseEnv cfgDefault "d" 7 stBusy 5 =
      some ({ success := false, error := some "已有插件正在生成中，请稍后再试" }, stBusy, []) :=
  ⟨rfl, generate_flow_busy_guard baseEnv cfgDefault "d" 7 stBusy 5 rfl⟩

theorem resumeGeneration_resets (env : Env) (cfg : Config) (md : Metadata)
    (st : FlowState) (tr : List Call) (fuel : Nat) (res : FlowResult)
    (st' : FlowState) (tr' : List Call)
    (h : resumeGeneration env cfg md st tr fuel = some (res, st', tr')) :
    st'.generation_status.is_generating = false ∧
    st'.generation_status.current_step = 0 ∧
    st'.generation_status.progress_percentage = 0 ∧
    st'.generation_status.plugin_name = "" := by
  unfold resumeGeneration at h
  try dsimp only at h
  split at h
  · exact absurd h (by simp)
  · simp only [Option.some_inj, Prod.mk.injEq] at h
    obtain ⟨-, h2, -⟩ := h
    subst h2
    simp [resetStatusState]

theorem codePhase_pending (env : Env) (cfg : Config) (md : Metadata)
    (pn : String) (st : FlowState) (tr : List Call) (fuel : Nat)
    (res : FlowResult) (st' : FlowState) (tr' : List Call)
    (h : codePhase env cfg md pn st tr fuel = some (res, st', tr')) :
    st'.pending_generation = st.pending_generation := by
  unfold codePhase at h
  try dsimp only at h
  split at h
  · simp only [Option.some_inj, Prod.mk.injEq] at h
    obtain ⟨-, h2, -⟩ := h; subst h2; rfl
  · split at h
    · exact absurd h (by simp)
    · simp only [Option.some_inj, Prod.mk.injEq] at h
      obtain ⟨-, h2, -⟩ := h; subst h2; rfl
    · split at h
      · simp only [Option.some_inj, Prod.mk.injEq] at h
        obtain ⟨-, h2, -⟩ := h; subst h2; rfl
      · split at h
        · simp only [Option.some_inj, Prod.mk.injEq] at h
          obtain ⟨-, h2, -⟩ := h; subst h2; rfl
        · simp only [Option.some_inj, Prod.mk.injEq] at h
          obtain ⟨-, h2, -⟩ := h; subst h2; rfl

theorem resumeGeneration_pending (env : Env) (cfg : Config) (md : Metadata)
    (st : FlowState) (tr : List Call) (fuel : Nat) (res : FlowResult)
    (st' : FlowState) (tr' : List Call)
    (h : resumeGeneration env cfg md st tr fuel = some (res, st', tr')) :
    st'.pending_generation = st.pending_generation := by
  unfold resumeGeneration at h
  try dsimp only at h
  split at h
  · exact absurd h (by simp)
  · next heq =>
    simp only [Option.some_inj, Prod.mk.injEq] at h
    obtain ⟨-, h2, -⟩ := h
    subst h2
    rw [resetStatusState_pending, codePhase_pending _ _ _ _ _ _ _ _ _ _ heq]
    rfl

/-- C3 (amended): the `finally` blocks reset exactly the four fields
`is_generating`, `current_step`, `progress_percentage` and `plugin_name`
for every invocation that enters the pipeline body; `start_time` is not
cleared, and early returns (busy rejection, no-pending, user reject,
refinement failure) leave the status exactly as it was. -/
theorem finally_resets_four_fields :
    (∀ env cfg description event st fuel res st' tr,
       st.generation_status.is_generating = false →
       generate_plugin_flow env cfg description event st fuel = some (res, st', tr) →
       st'.generation_status.is_generating = false ∧
       st'.generation_status.current_step = 0 ∧
       st'.generation_status.progress_percentage = 0 ∧
       st'.generation_status.plugin_name = "") ∧
    (∀ env cfg approved feedback st fuel res st' tr,
       continue_plugin_generation env cfg approved feedback st fuel = some (res, st', tr) →
       ((st'.generation_status.is_generating = false ∧
         st'.generation_status.current_step = 0 ∧
         st'.generation_status.progress_percentage = 0 ∧
         st'.generation_status.plugin_name = "") ∨
        st'.generation_status = st.generation_status)) ∧
    (∀ env cfg description event st fuel,
       st.generation_status.is_generating = true →
       generate_plugin_flow env cfg description event st fuel =
         some ({ success := false, error := some "已有插件正在生成中，请稍后再试" }, st, [])) := by
  refine ⟨?_, ?_, ?_⟩
  · intro env cfg description event st fuel res st' tr hb h
    simp only [generate_plugin_flow, hb, Bool.false_eq_true, if_false] at h
    split at h
    · exact absurd h (by simp)
    · simp only [Option.some_inj, Prod.mk.injEq] at h
      obtain ⟨-, h2, -⟩ := h
      subst h2
      simp [resetStatusState]
  · intro env cfg approved feedback st fuel res st' tr h
    unfold continue_plugin_generation at h
    try dsimp only at h
    split at h
    · right
      simp only [Option.some_inj, Prod.mk.injEq] at h
      obtain ⟨-, h2, -⟩ := h; subst h2; rfl
    · split at h
      · right
        simp only [Option.some_inj, Prod.mk.injEq] at h
        obtain ⟨-, h2, -⟩ := h; subst h2; rfl
      · split at h
        · split at h
          · right
            simp only [Option.some_inj, Prod.mk.injEq] at h
            obtain ⟨-, h2, -⟩ := h; subst h2; rfl
          · right
            simp only [Option.some_inj, Prod.mk.injEq] at h
            obtain ⟨-, h2, -⟩ := h; subst h2; rfl
          · try dsimp only at h
            split at h
            · right
              simp only [Option.some_inj, Prod.mk.injEq] at h
              obtain ⟨-, h2, -⟩ := h; subst h2; rfl
            · exact Or.inl (resumeGeneration_resets _ _ _ _ _ _ _ _ _ h)
        · exact Or.inl (resumeGeneration_resets _ _ _ _ _ _ _ _ _ h)
  · intro env cfg description event st fuel h
    simp [generate_plugin_flow, h]

theorem finally_resets_four_fields_witness :
    ∃ res st' tr,
      generate_plugin_flow baseEnv cfgAuto "d" 7 idleSt 5 = some (res, st', tr) ∧
      st'.generation_status.is_generating = false ∧
      st'.generation_status.current_step = 0 ∧
      st'.generation_status.progress_percentage = 0 ∧
      st'.generation_status.plugin_name = "" := by
  obtain ⟨res, st', tr, hsome⟩ :
      ∃ res st' tr, generate_plugin_flow baseEnv cfgAuto "d" 7 idleSt 5 = some (res, st', tr) :=
    ⟨_, _, _, rfl⟩
  exact ⟨res, st', tr, hsome,
    finally_resets_four_fields.1 baseEnv cfgAuto "d" 7 idleSt 5 res st' tr rfl hsome⟩

/-- C4: a call to `continue_plugin_generation` that finds an active pending
proposal leaves the slot cleared in every terminating outcome; a rejection
returns the user-cancelled failure with the cleared slot and a single
cancellation message (no model call); and once the slot is clear a further
call gets the no-pending failure, so the proposal is consumed exactly once. -/
theorem pending_consumed_once :
    (∀ env cfg approved feedback st fuel res st' tr,
       st.pending_generation.active = true →
       continue_plugin_generation env cfg approved feedback st fuel = some (res, st', tr) →
       st'.pending_generation = emptyPending) ∧
    (∀ env cfg feedback st fuel,
       st.pending_generation.active = true →
       continue_plugin_generation env cfg false feedback st fuel =
         some (failRes "用户取消了插件生成",
               { st with pending_generation := emptyPending },
               [.send "用户取消了插件生成"])) ∧
    (∀ env cfg approved feedback st fuel,
       st.pending_generation.active = false →
       continue_plugin_generation env cfg approved feedback st fuel =
         some (failRes "没有待确认的插件生成任务", st, [])) := by
  refine ⟨?_, ?_, ?_⟩
  · intro env cfg approved feedback st fuel res st' tr hact h
    simp only [continue_plugin_generation, hact, Bool.not_true, Bool.false_eq_true,
      if_false] at h
    try dsimp only at h
    split at h
    · simp only [Option.some_inj, Prod.mk.injEq] at h
      obtain ⟨-, h2, -⟩ := h; subst h2; rfl
    · split at h
      · split at h
        · simp only [Option.some_inj, Prod.mk.injEq] at h
          obtain ⟨-, h2, -⟩ := h; subst h2; rfl
        · simp only [Option.some_inj, Prod.mk.injEq] at h
          obtain ⟨-, h2, -⟩ := h; subst h2; rfl
        · try dsimp only at h
          split at h
          · simp only [Option.some_inj, Prod.mk.injEq] at h
            obtain ⟨-, h2, -⟩ := h; subst h2; rfl
          · rw [resumeGeneration_pending _ _ _ _ _ _ _ _ _ h]
      · rw [resumeGeneration_pending _ _ _ _ _ _ _ _ _ h]
  · intro env cfg feedback st fuel hact
    simp [continue_plugin_generation, hact]
  · intro env cfg approved feedback st fuel hact
    simp [continue_plugin_generation, hact]

theorem pending_consumed_once_witness :
    continue_plugin_generation baseEnv cfgDefault false "" stPending 5 =
      some (failRes "用户取消了插件生成",
            { stPending with pending_generation := emptyPending },
            [.send "用户取消了插件生成"]) ∧
    continue_plugin_generation baseEnv cfgDefault true "" idleSt 5 =
      some (failRes "没有待确认的插件生成任务", idleSt, []) :=
  ⟨pending_consumed_once.2.1 baseEnv cfgDefault "" stPending 5 rfl,
   pending_consumed_once.2.2 baseEnv cfgDefault true "" idleSt 5 rfl⟩

/-- C3 counterexample: the `finally` blocks reset only four fields; on this
concrete run the flow terminates but `start_time` keeps the value set at
entry, so the status is not the full idle shape the claim describes. -/
theorem generation_status_counterexample :
    (generate_plugin_flow envDirInvalid cfgAuto "d" 7 idleSt 5).map
      (fun r => (r.1.error, r.2.1.generation_status.start_time,
                 statusIsIdleShape r.2.1.generation_status)) =
    some (some "目录结构验证失败：未找到AstrBot安装目录", "2024-01-01 00:00:00", false) := by
  rfl

theorem reviewGuard_of_passes {th : Int} {r : Review} (hp : reviewPasses th r = true)
    (m : Int) (u : Bool) (j : Nat) : reviewGuard th m u j r = false := by
  simp only [reviewPasses, Bool.and_eq_true, decide_eq_true_eq] at hp
  have hlt : ¬(r.satisfaction_score < th) := not_lt.mpr hp.1
  simp [reviewGuard, hp.2, hlt]

theorem review_fix_loop_exit (env : Env) (th m : Int) (strict u : Bool)
    (fuel k j : Nat) (cur : Review) (hg : reviewGuard th m u j cur = false) :
    review_fix_loop env th m strict u fuel k j cur = some (.ok cur, []) := by
  cases fuel <;> simp [review_fix_loop, hg]

theorem reviewPhase_first_pass (env : Env) (th m : Int) (strict : Bool)
    (fuel : Nat) (rv : Review)
    (hrev : env.reviewAttempts 0 = .ok rv)
    (hpass : reviewPasses th rv = true) :
    reviewPhase env th m strict fuel = some (.ok rv, [.llmReview]) := by
  unfold reviewPhase
  simp only [review_code_with_retry, hrev]
  rw [review_fix_loop_exit env th m strict (m == -1) fuel 1 0 rv
    (reviewGuard_of_passes hpass m (m == -1) 0)]
  rfl

/-- C5: the existence check on the sanitized, namespaced name happens right
after the metadata synthesis; when the directory detector reports the name
as existing, the flow returns the already-exists failure and the whole trace
is exactly one metadata call, the existence check and two messages — no
markdown, code, review or fix synthesis happens. -/
theorem exists_check_precedes_further_synthesis
    (env : Env) (cfg : Config) (description : String) (event : Nat)
    (st : FlowState) (fuel : Nat) (md : Metadata)
    (hbusy : st.generation_status.is_generating = false)
    (hdir : env.dir_validation.valid = true)
    (hmeta : (if cfg.step_by_step then env.genMeta else env.genMetaCombined) = .ok (some md))
    (hex : check_plugin_exists env st.fs
        (namespacedName (sanitize_plugin_name (md.name.getD "astrbot_plugin_generated"))) = true) :
    ∃ st',
      generate_plugin_flow env cfg description event st fuel =
        some (failRes ("插件 \x27" ++
                namespacedName (sanitize_plugin_name (md.name.getD "astrbot_plugin_generated")) ++
                "\x27 已存在"),
              st',
              [.send (stepMsgS (updateStatusF (setGenerating st env.now) 1 "")),
               .llmMeta,
               .existsCheck (namespacedName (sanitize_plugin_name (md.name.getD "astrbot_plugin_generated"))) true,
               .send ("插件 \x27" ++
                 namespacedName (sanitize_plugin_name (md.name.getD "astrbot_plugin_generated")) ++
                 "\x27 已存在")]) ∧
      st'.pending_generation = st.pending_generation ∧ st'.fs = st.fs := by
  simp only [generate_plugin_flow, hbusy, Bool.false_eq_true, if_false]
  unfold generate_try
  rw [hmeta]
  simp only [hdir, Bool.not_true, Bool.false_eq_true, if_false]
  dsimp only [setdefaultsMeta]
  simp only [updateStatusF_fs, setGenerating_fs, hex]
  exact ⟨_, rfl, rfl, rfl⟩

theorem exists_check_precedes_further_synthesis_witness :
    ∃ st',
      generate_plugin_flow baseEnv cfgDefault "d" 7 stHasPlugin 5 =
        some (failRes ("插件 \x27" ++
                namespacedName (sanitize_plugin_name
                  (({ name := some "My Plugin!" } : Metadata).name.getD "astrbot_plugin_generated")) ++
                "\x27 已存在"),
              st',
              [.send (stepMsgS (updateStatusF (setGenerating stHasPlugin baseEnv.now) 1 "")),
               .llmMeta,
               .existsCheck (namespacedName (sanitize_plugin_name
                  (({ name := some "My Plugin!" } : Metadata).name.getD "astrbot_plugin_generated"))) true,
               .send ("插件 \x27" ++
                 namespacedName (sanitize_plugin_name
                   (({ name := some "My Plugin!" } : Metadata).name.getD "astrbot_plugin_generated")) ++
                 "\x27 已存在")]) ∧
      st'.pending_generation = stHasPlugin.pending_generation ∧ st'.fs = stHasPlugin.fs :=
  exists_check_precedes_further_synthesis baseEnv cfgDefault "d" 7 stHasPlugin 5
    { name := some "My Plugin!" } rfl rfl rfl (by decide)

/-- C8 counterexample: with an active pending proposal and no generation in
flight, a new `generate_plugin_flow` call is not rejected: it runs to the
confirmation gate and silently overwrites the pending slot (the stored
description changes from "olddesc" to "newdesc"). -/
theorem pending_slot_not_guarded :
    (generate_plugin_flow baseEnv cfgDefault "newdesc" 7 stPending 5).map
      (fun r => (r.1.pending_confirmation, r.1.error,
                 r.2.1.pending_generation.active, r.2.1.pending_generation.description)) =
    some (true, some "等待用户确认", true, "newdesc") := by
  rfl

/-- C8 (amended): a new `generate_plugin_flow` call while a pending proposal
is active and no generation is in flight is not rejected; it re-runs stages
1-2 and, at the confirmation gate, silently overwrites the single pending
slot with the new proposal. -/
theorem pending_slot_overwritten
    (env : Env) (cfg : Config) (description : String) (event : Nat)
    (st : FlowState) (fuel : Nat) (md : Metadata) (doc : String)
    (hbusy : st.generation_status.is_generating = false)
    (hpend : st.pending_generation.active = true)
    (hdir : env.dir_validation.valid = true)
    (hsbs : cfg.step_by_step = true)
    (hmeta : env.genMeta = .ok (some md))
    (hex : check_plugin_exists env st.fs
        (namespacedName (sanitize_plugin_name (md.name.getD "astrbot_plugin_generated"))) = false)
    (hdoc : env.genMarkdown = .ok doc)
    (hauto : cfg.auto_approve = false) :
    ∃ res st' tr,
      generate_plugin_flow env cfg description event st fuel = some (res, st', tr) ∧
      res.pending_confirmation = true ∧
      res.error = some "等待用户确认" ∧
      st'.pending_generation.active = true ∧
      st'.pending_generation.description = description ∧
      st'.pending_generation.markdown = doc ∧
      st'.pending_generation.event = some event ∧
      st'.pending_generation.timestamp = env.now := by
  simp only [generate_plugin_flow, hbusy, Bool.false_eq_true, if_false]
  unfold generate_try
  simp only [hsbs, if_true]
  rw [hmeta]
  simp only [hdir, Bool.not_true, Bool.false_eq_true, if_false]
  dsimp only [setdefaultsMeta]
  simp only [updateStatusF_fs, setGenerating_fs, hex]
  unfold afterDoc
  rw [hdoc]
  simp only [hauto, Bool.not_false, if_true, Bool.false_eq_true, if_false]
  exact ⟨_, _, _, rfl, rfl, rfl, rfl, rfl, rfl, rfl, rfl⟩

theorem pending_slot_overwritten_witness :
    ∃ res st' tr,
      generate_plugin_flow baseEnv cfgDefault "newdesc" 7 stPending 5 = some (res, st', tr) ∧
      res.pending_confirmation = true ∧
      res.error = some "等待用户确认" ∧
      st'.pending_generation.active = true ∧
      st'.pending_generation.description = "newdesc" ∧
      st'.pending_generation.markdown = "md" ∧
      st'.pending_generation.event = some 7 ∧
      st'.pending_generation.timestamp = baseEnv.now :=
  pending_slot_overwritten baseEnv cfgDefault "newdesc" 7 stPending 5
    { name := some "My Plugin!" } "md" rfl rfl rfl rfl rfl (by decide) rfl rfl

/-- C10: with an unresolvable plugins directory, `check_plugin_exists`
returns false (never an error), so the collision guard silently passes; the
collision surfaces only at materialization, where `_create_plugin_files`
raises and the flow fails with that error. -/
theorem unresolvable_plugins_dir_behavior (env : Env)
    (hnone : env.plugins_dir = none) :
    (∀ fs name, check_plugin_exists env fs name = false) ∧
    (∀ cfg fs name metadata,
       createPluginFiles env cfg fs name metadata = .error "无法获取插件目录") ∧
    (∀ (cfg : Config) (metadata : Metadata) (pn : String) (st : FlowState)
       (tr : List Call) (fuel : Nat) (code : String) (rv : Review),
       env.genCode = .ok code →
       env.reviewAttempts 0 = .ok rv →
       reviewPasses cfg.satisfaction_threshold rv = true →
       ∃ st' tr', codePhase env cfg metadata pn st tr fuel =
         some (failRes "无法获取插件目录", st', tr')) := by
  refine ⟨?_, ?_, ?_⟩
  · intro fs name
    simp [check_plugin_exists, hnone]
  · intro cfg fs name metadata
    simp [createPluginFiles, hnone]
  · intro cfg metadata pn st tr fuel code rv hcode hrev hpass
    unfold codePhase
    rw [hcode, reviewPhase_first_pass env cfg.satisfaction_threshold cfg.max_retries
      cfg.strict_review fuel rv hrev hpass]
    simp only [reviewPasses, Bool.and_eq_true, decide_eq_true_eq] at hpass
    have hlt : decide (rv.satisfaction_score < cfg.satisfaction_threshold) = false := by
      simp; omega
    simp only [hlt, hpass.2, Bool.not_true, Bool.or_self, Bool.false_eq_true, if_false]
    simp only [createPluginFiles, hnone]
    exact ⟨_, _, rfl⟩

theorem unresolvable_plugins_dir_behavior_witness :
    check_plugin_exists envNoDir ["/data/plugins/astrbot_plugin_myplugin"] "myplugin" = false ∧
    createPluginFiles envNoDir cfgAuto [] "astrbot_plugin_myplugin" {} = .error "无法获取插件目录" ∧
    ∃ st' tr', codePhase envNoDir cfgAuto {} "astrbot_plugin_myplugin" idleSt [] 5 =
      some (failRes "无法获取插件目录", st', tr') :=
  ⟨(unresolvable_plugins_dir_behavior envNoDir rfl).1 _ _,
   (unresolvable_plugins_dir_behavior envNoDir rfl).2.1 _ _ _ _,
   (unresolvable_plugins_dir_behavior envNoDir rfl).2.2 cfgAuto {} "astrbot_plugin_myplugin"
     idleSt [] 5 "code" passReview rfl rfl (by decide)⟩

theorem installPhase_fail (env : Env) (cfg : Config) (result0 : FlowResult)
    (zp : String)
    (hip : env.installer_present = true)
    (hpw : cfg.api_password_md5 ≠ "")
    (hzip : env.createZip = .ok (some zp))
    (hfail : (∃ ir, env.installRes = .ok ir ∧ ir.success = false) ∨
             (∃ e, env.installRes = .error e)) :
    (installPhase env cfg result0).1.success = result0.success ∧
    (installPhase env cfg result0).1.install_error.isSome = true := by
  have hd : decide (cfg.api_password_md5 = "") = false := decide_eq_false hpw
  unfold installPhase
  rw [hzip]
  rcases hfail with ⟨ir, hir, hsucc⟩ | ⟨e, he⟩
  · rw [hir]
    simp [hip, hd, hsucc]
  · rw [he]
    simp [hip, hd]

/-- C7: when materialization succeeds and the subsequent installation fails
(a non-success install result or a raised exception), the flow still returns
success, records the failure only in the secondary `install_error` field,
and the artifact directory stays in the file system. -/
theorem install_failure_nonfatal
    (env : Env) (cfg : Config) (metadata : Metadata) (pn : String)
    (st : FlowState) (tr : List Call) (fuel : Nat)
    (code : String) (rv : Review) (base zp : String)
    (hcode : env.genCode = .ok code)
    (hrev : env.reviewAttempts 0 = .ok rv)
    (hpass : reviewPasses cfg.satisfaction_threshold rv = true)
    (hdir : env.plugins_dir = some base)
    (hip : env.installer_present = true)
    (hpw : cfg.api_password_md5 ≠ "")
    (hzip : env.createZip = .ok (some zp))
    (hfail : (∃ ir, env.installRes = .ok ir ∧ ir.success = false) ∨
             (∃ e, env.installRes = .error e)) :
    ∃ res st' tr',
      codePhase env cfg metadata pn st tr fuel = some (res, st', tr') ∧
      res.success = true ∧
      res.install_error.isSome = true ∧
      create_plugin_directory base pn ∈ st'.fs := by
  unfold codePhase
  rw [hcode, reviewPhase_first_pass env cfg.satisfaction_threshold cfg.max_retries
    cfg.strict_review fuel rv hrev hpass]
  have hp' := hpass
  simp only [reviewPasses, Bool.and_eq_true, decide_eq_true_eq] at hp'
  have hlt : decide (rv.satisfaction_score < cfg.satisfaction_threshold) = false := by
    simp; omega
  simp only [hlt, hp'.2, Bool.not_true, Bool.or_self, Bool.false_eq_true, if_false]
  simp only [createPluginFiles, hdir]
  obtain ⟨hsucc, herr⟩ := installPhase_fail env cfg
    { success := true, plugin_name := some pn,
      plugin_path := some (create_plugin_directory base pn),
      satisfaction_score := some rv.satisfaction_score, installed := some false }
    zp hip hpw hzip hfail
  refine ⟨_, _, _, rfl, ?_, herr, ?_⟩
  · rw [hsucc]
  · exact List.mem_cons_self _ _

theorem install_failure_nonfatal_witness :
    ∃ res st' tr',
      codePhase envInstallFail cfgAutoInstall {} "astrbot_plugin_myplugin" idleSt [] 5 =
        some (res, st', tr') ∧
      res.success = true ∧
      res.install_error.isSome = true ∧
      create_plugin_directory "/data/plugins" "astrbot_plugin_myplugin" ∈ st'.fs :=
  install_failure_nonfatal envInstallFail cfgAutoInstall {} "astrbot_plugin_myplugin"
    idleSt [] 5 "code" passReview "/data/plugins" "/tmp/z.zip"
    rfl rfl (by decide) rfl rfl (by decide) rfl
    (Or.inl ⟨{ success := false, error := some "bad zip" }, rfl, rfl⟩)

/-- C6 counterexample: the first review synthesis fails the quality check,
the loop issues a fix and then a re-review that raises; the raise propagates
out of the review phase as an error (aborting the flow) instead of degrading
to the canned score-0 review. -/
theorem inner_retry_not_applied_in_loop :
    reviewPhase envBoom 80 3 true 5 =
      some (.error "boom",
            [.llmReview, .send "代码审查未通过，正在修复（第1次重试）...", .llmFix, .llmReview]) := by
  rfl

/-- C6 (amended): only the initial review synthesis is protected by the
inner retry (default 3 attempts, degrading to the canned failing review with
score 0 built from the last error); the re-review synthesis inside the fix
loop is issued directly, and an exception there propagates to the outer
handler, aborting the flow with that error. -/
theorem review_retry_scope :
    (∀ (env : Env) (k : Nat) (e0 e1 e2 : String),
       env.reviewAttempts k = .error e0 →
       env.reviewAttempts (k + 1) = .error e1 →
       env.reviewAttempts (k + 2) = .error e2 →
       review_code_with_retry env k 3 =
         (cannedFailReview e2, k + 3, [.llmReview, .llmReview, .llmReview])) ∧
    (∀ (env : Env) (th m : Int) (strict unlimited : Bool) (fuel k j : Nat)
       (cur : Review) (c e : String),
       reviewGuard th m unlimited j cur = true →
       env.fixes j = .ok c →
       env.reviewAttempts k = .error e →
       ∃ msg, review_fix_loop env th m strict unlimited (fuel + 1) k j cur =
         some (.error e, [.send msg, .llmFix, .llmReview])) ∧
    (∀ (env : Env) (cfg : Config) (metadata : Metadata) (pn : String)
       (st : FlowState) (tr : List Call) (fuel : Nat) (code e : String)
       (tr2 : List Call),
       env.genCode = .ok code →
       reviewPhase env cfg.satisfaction_threshold cfg.max_retries cfg.strict_review fuel =
         some (.error e, tr2) →
       ∃ st' tr', codePhase env cfg metadata pn st tr fuel = some (failRes e, st', tr')) := by
  refine ⟨?_, ?_, ?_⟩
  · intro env k e0 e1 e2 h0 h1 h2
    have e21 : k + 1 + 1 = k + 2 := rfl
    have s1 : review_code_with_retry env (k + 2) 1 =
        (cannedFailReview e2, k + 3, [.llmReview]) := by
      show review_code_with_retry env (k + 2) (0 + 1) = _
      rw [review_code_with_retry, h2]
      rfl
    have s2 : review_code_with_retry env (k + 1) 2 =
        (cannedFailReview e2, k + 3, [.llmReview, .llmReview]) := by
      show review_code_with_retry env (k + 1) (1 + 1) = _
      rw [review_code_with_retry, h1]
      dsimp only
      rw [if_neg (by omega : ¬(1 = 0)), e21, s1]
    show review_code_with_retry env k (2 + 1) = _
    rw [review_code_with_retry, h0]
    dsimp only
    rw [if_neg (by omega : ¬(2 = 0)), s2]
  · intro env th m strict unlimited fuel k j cur c e hg hfix hrev
    refine ⟨if strict && !cur.approved then
        "代码审查未通过，正在修复（第" ++ toString (j + 1) ++ "次重试）..."
      else
        "代码满意度不足（" ++ toString cur.satisfaction_score ++
        "分），正在优化（第" ++ toString (j + 1) ++ "次重试）...", ?_⟩
    simp only [review_fix_loop, hg, if_true]
    rw [hfix, hrev]
  · intro env cfg metadata pn st tr fuel code e tr2 hcode hphase
    unfold codePhase
    rw [hcode, hphase]
    exact ⟨_, _, rfl⟩

theorem review_retry_scope_witness :
    review_code_with_retry envAllRaise 0 3 =
      (cannedFailReview "e2", 0 + 3, [.llmReview, .llmReview, .llmReview]) ∧
    (∃ msg, review_fix_loop envBoom 80 3 true false (4 + 1) 1 0 failingReview =
      some (.error "boom", [.send msg, .llmFix, .llmReview])) :=
  ⟨review_retry_scope.1 envAllRaise 0 "e0" "e1" "e2" rfl rfl rfl,
   review_retry_scope.2.1 envBoom 80 3 true false 4 1 0 failingReview "code2" "boom"
     (by decide) rfl rfl⟩

theorem reviewGuard_eq (th m : Int) (u : Bool) (j : Nat) (r : Review) :
    reviewGuard th m u j r = (!reviewPasses th r && (u || decide ((j : Int) < m))) := by
  unfold reviewGuard reviewPasses
  cases ha : r.approved
  · simp
  · by_cases h : r.satisfaction_score < th
    · have h1 : decide (r.satisfaction_score < th) = true := by simp [h]
      have h2 : decide (th ≤ r.satisfaction_score) = false := by simp; omega
      simp [h1, h2]
    · have h1 : decide (r.satisfaction_score < th) = false := by simp [h]
      have h2 : decide (th ≤ r.satisfaction_score) = true := by simp; omega
      simp [h1, h2]

theorem isRev_send (m : String) : isRev (.send m) = false := rfl
theorem isRev_meta : isRev .llmMeta = false := rfl
theorem isRev_markdown : isRev .llmMarkdown = false := rfl
theorem isRev_code : isRev .llmCode = false := rfl
theorem isRev_review : isRev .llmReview = true := rfl
theorem isRev_fix : isRev .llmFix = false := rfl
theorem isRev_optimize : isRev .llmOptimize = false := rfl
theorem isRev_exists (n : String) (b : Bool) : isRev (.existsCheck n b) = false := rfl
theorem isRev_zip : isRev .zipCreate = false := rfl
theorem isRev_install : isRev .install = false := rfl
theorem isRev_status : isRev .statusCheck = false := rfl
theorem isRev_remove : isRev .removeZip = false := rfl

theorem countR_nil : countR [] = 0 := rfl

theorem countR_cons (c : Call) (l : List Call) :
    countR (c :: l) = countR l + (if isRev c = true then 1 else 0) :=
  List.countP_cons _ _ _

theorem countR_append (a b : List Call) : countR (a ++ b) = countR a + countR b :=
  List.countP_append _ _ _

theorem rcwr_ok (env : Env) (k n : Nat) (r : Review)
    (h : env.reviewAttempts k = .ok r) :
    review_code_with_retry env k (n + 1) = (r, k + 1, [.llmReview]) := by
  rw [review_code_with_retry, h]

theorem reviewPasses_false {th : Int} {r : Review}
    (hp : ¬reviewPasses th r = true) : reviewPasses th r = false := by
  revert hp; cases reviewPasses th r <;> simp

theorem loop_bounded_spec (env : Env) (reviews : Nat → Review) (th m : Int)
    (strict : Bool)
    (hA : ∀ k, env.reviewAttempts k = .ok (reviews k))
    (hF : ∀ j, ∃ c, env.fixes j = .ok c)
    (hm : 0 ≤ m) :
    ∀ fuel k j cur, m.toNat - j ≤ fuel →
      ∃ r tr, review_fix_loop env th m strict false fuel k j cur = some (.ok r, tr) ∧
        countR tr ≤ m.toNat - j ∧
        (reviewPasses th r = true ↔
          (reviewPasses th cur = true ∨
           ∃ i, i < m.toNat - j ∧ reviewPasses th (reviews (k + i)) = true)) := by
  intro fuel
  induction fuel with
  | zero =>
    intro k j cur hfuel
    by_cases hp : reviewPasses th cur = true
    · refine ⟨cur, [], ?_, by simp [countR_nil], by simp [hp]⟩
      rw [review_fix_loop, reviewGuard_eq]
      simp [hp]
    · have hp' := reviewPasses_false hp
      have hjm : decide ((j : Int) < m) = false := by
        simp only [decide_eq_false_iff_not, not_lt]
        omega
      have h0 : m.toNat - j = 0 := by omega
      refine ⟨cur, [], ?_, by simp [countR_nil], by simp [hp', h0]⟩
      rw [review_fix_loop, reviewGuard_eq]
      simp [hjm]
  | succ f ih =>
    intro k j cur hfuel
    by_cases hp : reviewPasses th cur = true
    · refine ⟨cur, [], ?_, by simp [countR_nil], by simp [hp]⟩
      rw [review_fix_loop, reviewGuard_eq]
      simp [hp]
    · have hp' := reviewPasses_false hp
      by_cases hj : (j : Int) < m
      · have hguard : reviewGuard th m false j cur = true := by
          rw [reviewGuard_eq]
          simp [hp', hj]
        obtain ⟨c, hc⟩ := hF j
        have hjN : j < m.toNat := by omega
        obtain ⟨r, tr, hloop, hcount, hiff⟩ :=
          ih (k + 1) (j + 1) (reviews k) (by omega)
        refine ⟨r,
          .send (if strict && !cur.approved then
              "代码审查未通过，正在修复（第" ++ toString (j + 1) ++ "次重试）..."
            else
              "代码满意度不足（" ++ toString cur.satisfaction_score ++
              "分），正在优化（第" ++ toString (j + 1) ++ "次重试）...") ::
            .llmFix :: .llmReview :: tr, ?_, ?_, ?_⟩
        · rw [review_fix_loop, if_pos hguard]
          dsimp only
          rw [hc, hA k]
          dsimp only
          rw [hloop]
        · rw [countR_cons, countR_cons, countR_cons, isRev_send, isRev_fix, isRev_review]
          simp only [Bool.false_eq_true, if_false, if_true]
          omega
        · rw [hiff]
          constructor
          · rintro (h | ⟨i, hi, hpi⟩)
            · exact Or.inr ⟨0, by omega, by simpa using h⟩
            · refine Or.inr ⟨i + 1, by omega, ?_⟩
              rw [show k + (i + 1) = k + 1 + i by omega]
              exact hpi
          · rintro (h | ⟨i, hi, hpi⟩)
            · rw [hp'] at h
              exact absurd h (by simp)
            · cases i with
              | zero => exact Or.inl (by simpa using hpi)
              | succ i' =>
                refine Or.inr ⟨i', by omega, ?_⟩
                rw [show k + 1 + i' = k + (i' + 1) by omega]
                exact hpi
      · have hguard : reviewGuard th m false j cur = false := by
          rw [reviewGuard_eq]
          have : decide ((j : Int) < m) = false := by
            simp only [decide_eq_false_iff_not]; exact hj
          simp [this]
        have h0 : m.toNat - j = 0 := by omega
        refine ⟨cur, [], ?_, by simp [countR_nil], by simp [hp', h0]⟩
        rw [review_fix_loop]
        simp [hguard]

theorem loop_unlimited_only_pass (env : Env) (th m : Int) (strict : Bool) :
    ∀ fuel k j cur r tr,
      review_fix_loop env th m strict true fuel k j cur = some (.ok r, tr) →
      reviewPasses th r = true := by
  intro fuel
  induction fuel with
  | zero =>
    intro k j cur r tr h
    rw [review_fix_loop] at h
    by_cases hg : reviewGuard th m true j cur = true
    · rw [if_pos hg] at h
      exact absurd h (by simp)
    · rw [if_neg hg] at h
      simp only [Option.some_inj, Prod.mk.injEq, Except.ok.injEq] at h
      obtain ⟨h1, -⟩ := h
      subst h1
      have hgf : reviewGuard th m true j cur = false := by
        revert hg; cases reviewGuard th m true j cur <;> simp
      rw [reviewGuard_eq] at hgf
      simpa using hgf
  | succ f ih =>
    intro k j cur r tr h
    rw [review_fix_loop] at h
    by_cases hg : reviewGuard th m true j cur = true
    · rw [if_pos hg] at h
      dsimp only at h
      cases hc : env.fixes j with
      | error e => rw [hc] at h; exact absurd h (by simp)
      | ok c =>
        rw [hc] at h
        dsimp only at h
        cases hr : env.reviewAttempts k with
        | error e => rw [hr] at h; exact absurd h (by simp)
        | ok rv =>
          rw [hr] at h
          dsimp only at h
          cases hl : review_fix_loop env th m strict true f (k + 1) (j + 1) rv with
          | none => rw [hl] at h; exact absurd h (by simp)
          | some p =>
            obtain ⟨out, tr'⟩ := p
            rw [hl] at h
            simp only [Option.some_inj, Prod.mk.injEq] at h
            obtain ⟨h1, -⟩ := h
            subst h1
            exact ih _ _ _ _ _ hl
    · rw [if_neg hg] at h
      simp only [Option.some_inj, Prod.mk.injEq, Except.ok.injEq] at h
      obtain ⟨h1, -⟩ := h
      subst h1
      have hgf : reviewGuard th m true j cur = false := by
        revert hg; cases reviewGuard th m true j cur <;> simp
      rw [reviewGuard_eq] at hgf
      simpa using hgf

theorem loop_unlimited_first_pass (env : Env) (reviews : Nat → Review) (th : Int)
    (strict : Bool) (N : Nat)
    (hA : ∀ k, env.reviewAttempts k = .ok (reviews k))
    (hF : ∀ j, ∃ c, env.fixes j = .ok c)
    (hN : reviewPasses th (reviews N) = true)
    (hpre : ∀ i, i < N → reviewPasses th (reviews i) = false) :
    ∀ fuel k j, k ≤ N → N - k ≤ fuel →
      ∃ tr, review_fix_loop env th (-1) strict true fuel (k + 1) j (reviews k) =
        some (.ok (reviews N), tr) ∧ countR tr = N - k := by
  intro fuel
  induction fuel with
  | zero =>
    intro k j hk hfuel
    have hkN : k = N := by omega
    subst hkN
    refine ⟨[], ?_, by simp [countR_nil]⟩
    have hg : reviewGuard th (-1) true j (reviews k) = false := by
      rw [reviewGuard_eq]; simp [hN]
    rw [review_fix_loop]
    simp [hg]
  | succ f ih =>
    intro k j hk hfuel
    rcases Nat.eq_or_lt_of_le hk with hkN | hkN
    · subst hkN
      refine ⟨[], ?_, by simp [countR_nil]⟩
      have hg : reviewGuard th (-1) true j (reviews k) = false := by
        rw [reviewGuard_eq]; simp [hN]
      rw [review_fix_loop]
      simp [hg]
    · have hfail : reviewPasses th (reviews k) = false := hpre k hkN
      have hg : reviewGuard th (-1) true j (reviews k) = true := by
        rw [reviewGuard_eq]; simp [hfail]
      obtain ⟨c, hc⟩ := hF j
      obtain ⟨tr, hloop, hcount⟩ := ih (k + 1) (j + 1) hkN (by omega)
      refine ⟨.send (if strict && !(reviews k).approved then
            "代码审查未通过，正在修复（第" ++ toString (j + 1) ++ "次重试）..."
          else
            "代码满意度不足（" ++ toString (reviews k).satisfaction_score ++
            "分），正在优化（第" ++ toString (j + 1) ++ "次重试）...") ::
          .llmFix :: .llmReview :: tr, ?_, ?_⟩
      · rw [review_fix_loop, if_pos hg]
        dsimp only
        rw [hc, hA (k + 1)]
        dsimp only
        rw [hloop]
      · rw [countR_cons, countR_cons, countR_cons, isRev_send, isRev_fix, isRev_review]
        simp only [Bool.false_eq_true, if_false, if_true]
        omega

theorem loop_count_bounded (env : Env) (th m : Int) (strict : Bool) (hm : 0 ≤ m) :
    ∀ fuel k j cur out tr,
      review_fix_loop env th m strict false fuel k j cur = some (out, tr) →
      countR tr ≤ m.toNat - j := by
  intro fuel
  induction fuel with
  | zero =>
    intro k j cur out tr h
    rw [review_fix_loop] at h
    by_cases hg : reviewGuard th m false j cur = true
    · rw [if_pos hg] at h; exact absurd h (by simp)
    · rw [if_neg hg] at h
      simp only [Option.some_inj, Prod.mk.injEq] at h
      obtain ⟨-, h2⟩ := h
      subst h2
      simp [countR_nil]
  | succ f ih =>
    intro k j cur out tr h
    rw [review_fix_loop] at h
    by_cases hg : reviewGuard th m false j cur = true
    · have hj : j < m.toNat := by
        rw [reviewGuard_eq] at hg
        simp only [Bool.and_eq_true, Bool.or_eq_true, decide_eq_true_eq] at hg
        rcases hg.2 with h' | h'
        · exact absurd h' (by simp)
        · omega
      rw [if_pos hg] at h
      dsimp only at h
      cases hc : env.fixes j with
      | error e =>
        rw [hc] at h
        simp only [Option.some_inj, Prod.mk.injEq] at h
        obtain ⟨-, h2⟩ := h
        subst h2
        rw [countR_cons, countR_cons, countR_nil, isRev_send, isRev_fix]
        simp only [Bool.false_eq_true, if_false]
        omega
      | ok c =>
        rw [hc] at h
        dsimp only at h
        cases hr : env.reviewAttempts k with
        | error e =>
          rw [hr] at h
          simp only [Option.some_inj, Prod.mk.injEq] at h
          obtain ⟨-, h2⟩ := h
          subst h2
          rw [countR_cons, countR_cons, countR_cons, countR_nil,
            isRev_send, isRev_fix, isRev_review]
          simp only [Bool.false_eq_true, if_false, if_true]
          omega
        | ok rv =>
          rw [hr] at h
          dsimp only at h
          cases hl : review_fix_loop env th m strict false f (k + 1) (j + 1) rv with
          | none => rw [hl] at h; exact absurd h (by simp)
          | some p =>
            obtain ⟨out', tr'⟩ := p
            rw [hl] at h
            simp only [Option.some_inj, Prod.mk.injEq] at h
            obtain ⟨-, h2⟩ := h
            subst h2
            have := ih _ _ _ _ _ hl
            rw [countR_cons, countR_cons, countR_cons,
              isRev_send, isRev_fix, isRev_review]
            simp only [Bool.false_eq_true, if_false, if_true]
            omega
    · rw [if_neg hg] at h
      simp only [Option.some_inj, Prod.mk.injEq] at h
      obtain ⟨-, h2⟩ := h
      subst h2
      simp [countR_nil]

theorem phase_count (env : Env) (reviews : Nat → Review) (th m : Int)
    (strict : Bool) (fuel : Nat) (out : Except String Review) (tr : List Call)
    (hA : ∀ k, env.reviewAttempts k = .ok (reviews k))
    (hm : 0 ≤ m)
    (h : reviewPhase env th m strict fuel = some (out, tr)) :
    countR tr ≤ m.toNat + 1 := by
  unfold reviewPhase at h
  have h3 : review_code_with_retry env 0 3 = (reviews 0, 1, [.llmReview]) :=
    rcwr_ok env 0 2 (reviews 0) (hA 0)
  rw [h3] at h
  dsimp only at h
  have hne : (m == -1) = false := by
    simp only [beq_eq_false_iff_ne, ne_eq]
    omega
  rw [hne] at h
  cases hl : review_fix_loop env th m strict false fuel 1 0 (reviews 0) with
  | none => rw [hl] at h; exact absurd h (by simp)
  | some p =>
    obtain ⟨out', tr'⟩ := p
    rw [hl] at h
    simp only [Option.some_inj, Prod.mk.injEq] at h
    obtain ⟨-, h2⟩ := h
    subst h2
    have hc := loop_count_bounded env th m strict hm fuel 1 0 (reviews 0) out' tr' hl
    rw [countR_append, countR_cons, countR_nil, isRev_review]
    simp only [if_true]
    omega

theorem reviewPhase_bounded_spec (env : Env) (reviews : Nat → Review) (th m : Int)
    (strict : Bool) (fuel : Nat)
    (hA : ∀ k, env.reviewAttempts k = .ok (reviews k))
    (hF : ∀ j, ∃ c, env.fixes j = .ok c)
    (hm : 0 ≤ m) (hfuel : m.toNat ≤ fuel) :
    ∃ r tr, reviewPhase env th m strict fuel = some (.ok r, tr) ∧
      countR tr ≤ m.toNat + 1 ∧
      (reviewPasses th r = true ↔
        ∃ i, i ≤ m.toNat ∧ reviewPasses th (reviews i) = true) := by
  unfold reviewPhase
  have h3 : review_code_with_retry env 0 3 = (reviews 0, 1, [.llmReview]) :=
    rcwr_ok env 0 2 (reviews 0) (hA 0)
  rw [h3]
  dsimp only
  have hne : (m == -1) = false := by
    simp only [beq_eq_false_iff_ne, ne_eq]
    omega
  rw [hne]
  obtain ⟨r, tr, hl, hc, hiff⟩ :=
    loop_bounded_spec env reviews th m strict hA hF hm fuel 1 0 (reviews 0) (by omega)
  rw [hl]
  refine ⟨r, _, rfl, ?_, ?_⟩
  · rw [countR_append, countR_cons, countR_nil, isRev_review]
    simp only [if_true]
    omega
  · rw [hiff]
    constructor
    · rintro (h | ⟨i, hi, hpi⟩)
      · exact ⟨0, by omega, h⟩
      · rw [show 1 + i = i + 1 by omega] at hpi
        exact ⟨i + 1, by omega, hpi⟩
    · rintro ⟨i, hi, hpi⟩
      cases i with
      | zero => exact Or.inl hpi
      | succ i' =>
        refine Or.inr ⟨i', by omega, ?_⟩
        rw [show 1 + i' = i' + 1 by omega]
        exact hpi

theorem reviewPhase_unlimited_only_pass (env : Env) (th : Int) (strict : Bool)
    (fuel : Nat) (r : Review) (tr : List Call)
    (h : reviewPhase env th (-1) strict fuel = some (.ok r, tr)) :
    reviewPasses th r = true := by
  unfold reviewPhase at h
  rcases hw : review_code_with_retry env 0 3 with ⟨rv0, k0, tr0⟩
  rw [hw] at h
  dsimp only at h
  rw [show ((-1 : Int) == -1) = true from rfl] at h
  cases hl : review_fix_loop env th (-1) strict true fuel k0 0 rv0 with
  | none => rw [hl] at h; exact absurd h (by simp)
  | some p =>
    obtain ⟨out, tr1⟩ := p
    rw [hl] at h
    simp only [Option.some_inj, Prod.mk.injEq] at h
    obtain ⟨h1, -⟩ := h
    exact loop_unlimited_only_pass env th (-1) strict fuel k0 0 rv0 r tr1 (h1 ▸ hl)

theorem reviewPhase_unlimited_first_pass (env : Env) (reviews : Nat → Review)
    (th : Int) (strict : Bool) (N fuel : Nat)
    (hA : ∀ k, env.reviewAttempts k = .ok (reviews k))
    (hF : ∀ j, ∃ c, env.fixes j = .ok c)
    (hN : reviewPasses th (reviews N) = true)
    (hpre : ∀ i, i < N → reviewPasses th (reviews i) = false)
    (hfuel : N ≤ fuel) :
    ∃ tr, reviewPhase env th (-1) strict fuel = some (.ok (reviews N), tr) ∧
      countR tr = N + 1 := by
  unfold reviewPhase
  have h3 : review_code_with_retry env 0 3 = (reviews 0, 1, [.llmReview]) :=
    rcwr_ok env 0 2 (reviews 0) (hA 0)
  rw [h3]
  dsimp only
  rw [show ((-1 : Int) == -1) = true from rfl]
  obtain ⟨tr, hloop, hcount⟩ :=
    loop_unlimited_first_pass env reviews th strict N hA hF hN hpre fuel 0 0
      (by omega) (by omega)
  rw [show (0 : Nat) + 1 = 1 from rfl] at hloop
  rw [hloop]
  refine ⟨_, rfl, ?_⟩
  rw [countR_append, countR_cons, countR_nil, isRev_review]
  simp only [if_true]
  omega

theorem installPhase_countR (env : Env) (cfg : Config) (r0 : FlowResult) :
    countR (installPhase env cfg r0).2 = 0 := by
  unfold installPhase
  repeat' split
  all_goals
    simp [countR_append, countR_cons, countR_nil, isRev_send, isRev_zip,
      isRev_install, isRev_status, isRev_remove]

theorem codePhase_count (env : Env) (reviews : Nat → Review) (cfg : Config)
    (md : Metadata) (pn : String) (st : FlowState) (tr : List Call) (fuel : Nat)
    (res : FlowResult) (st' : FlowState) (tr' : List Call)
    (hA : ∀ k, env.reviewAttempts k = .ok (reviews k))
    (hm : 0 ≤ cfg.max_retries)
    (h : codePhase env cfg md pn st tr fuel = some (res, st', tr')) :
    countR tr' ≤ countR tr + (cfg.max_retries.toNat + 1) := by
  unfold codePhase at h
  dsimp only at h
  split at h
  · simp only [Option.some_inj, Prod.mk.injEq] at h
    obtain ⟨-, -, h3⟩ := h
    subst h3
    simp [countR_append, countR_cons, countR_nil, isRev_send, isRev_code]
  · split at h
    · exact absurd h (by simp)
    · next e tr2 heq =>
      have hb := phase_count env reviews cfg.satisfaction_threshold cfg.max_retries
        cfg.strict_review fuel _ tr2 hA hm heq
      simp only [Option.some_inj, Prod.mk.injEq] at h
      obtain ⟨-, -, h3⟩ := h
      subst h3
      simp only [countR_append, countR_cons, countR_nil, isRev_send, isRev_code,
        Bool.false_eq_true, if_false]
      omega
    · next rv tr2 heq =>
      have hb := phase_count env reviews cfg.satisfaction_threshold cfg.max_retries
        cfg.strict_review fuel _ tr2 hA hm heq
      split at h
      · simp only [Option.some_inj, Prod.mk.injEq] at h
        obtain ⟨-, -, h3⟩ := h
        subst h3
        simp only [countR_append, countR_cons, countR_nil, isRev_send, isRev_code,
          Bool.false_eq_true, if_false]
        omega
      · split at h
        · simp only [Option.some_inj, Prod.mk.injEq] at h
          obtain ⟨-, -, h3⟩ := h
          subst h3
          simp only [countR_append, countR_cons, countR_nil, isRev_send, isRev_code,
            Bool.false_eq_true, if_false]
          omega
        · simp only [Option.some_inj, Prod.mk.injEq] at h
          obtain ⟨-, -, h3⟩ := h
          subst h3
          simp only [countR_append, countR_cons, countR_nil, isRev_send, isRev_code,
            installPhase_countR, Bool.false_eq_true, if_false]
          omega

theorem afterDoc_count (env : Env) (reviews : Nat → Review) (cfg : Config)
    (description : String) (event : Nat) (md : Metadata) (doc pn : String)
    (st : FlowState) (tr : List Call) (fuel : Nat)
    (res : FlowResult) (st' : FlowState) (tr' : List Call)
    (hA : ∀ k, env.reviewAttempts k = .ok (reviews k))
    (hm : 0 ≤ cfg.max_retries)
    (h : afterDoc env cfg description event md doc pn st tr fuel = some (res, st', tr')) :
    countR tr' ≤ countR tr + (cfg.max_retries.toNat + 1) := by
  unfold afterDoc at h
  dsimp only at h
  split at h
  · simp only [Option.some_inj, Prod.mk.injEq] at h
    obtain ⟨-, -, h3⟩ := h
    subst h3
    simp [countR_append, countR_cons, countR_nil, isRev_send]
  · have := codePhase_count env reviews cfg _ pn _ _ fuel res st' tr' hA hm h
    simp only [countR_append, countR_cons, countR_nil, isRev_send,
      Bool.false_eq_true, if_false] at this
    omega

theorem generate_try_count (env : Env) (reviews : Nat → Review) (cfg : Config)
    (description : String) (event : Nat) (st : FlowState) (fuel : Nat)
    (res : FlowResult) (st' : FlowState) (tr : List Call)
    (hA : ∀ k, env.reviewAttempts k = .ok (reviews k))
    (hm : 0 ≤ cfg.max_retries)
    (h : generate_try env cfg description event st fuel = some (res, st', tr)) :
    countR tr ≤ cfg.max_retries.toNat + 1 := by
  unfold generate_try at h
  dsimp only at h
  repeat' split at h
  all_goals
    first
    | (simp only [Option.some_inj, Prod.mk.injEq] at h
       obtain ⟨-, -, h3⟩ := h
       subst h3
       simp only [countR_append, countR_cons, countR_nil, isRev_send, isRev_meta,
         isRev_exists, isRev_markdown, Bool.false_eq_true, if_false]
       omega)
    | (have hb := afterDoc_count env reviews cfg description event _ _ _ _ _ fuel
         res st' tr hA hm h
       simp only [countR_append, countR_cons, countR_nil, isRev_send, isRev_meta,
         isRev_exists, isRev_markdown, Bool.false_eq_true, if_false] at hb
       omega)

theorem generate_flow_count (env : Env) (reviews : Nat → Review) (cfg : Config)
    (description : String) (event : Nat) (st : FlowState) (fuel : Nat)
    (res : FlowResult) (st' : FlowState) (tr : List Call)
    (hA : ∀ k, env.reviewAttempts k = .ok (reviews k))
    (hm : 0 ≤ cfg.max_retries)
    (h : generate_plugin_flow env cfg description event st fuel = some (res, st', tr)) :
    countR tr ≤ cfg.max_retries.toNat + 1 := by
  unfold generate_plugin_flow at h
  split at h
  · simp only [Option.some_inj, Prod.mk.injEq] at h
    obtain ⟨-, -, h3⟩ := h
    subst h3
    simp [countR_nil]
  · split at h
    · exact absurd h (by simp)
    · next heq =>
      simp only [Option.some_inj, Prod.mk.injEq] at h
      obtain ⟨-, -, h3⟩ := h
      subst h3
      exact generate_try_count env reviews cfg description event _ fuel _ _ _ hA hm heq

theorem resumeGeneration_count (env : Env) (reviews : Nat → Review) (cfg : Config)
    (md : Metadata) (st : FlowState) (tr : List Call) (fuel : Nat)
    (res : FlowResult) (st' : FlowState) (tr' : List Call)
    (hA : ∀ k, env.reviewAttempts k = .ok (reviews k))
    (hm : 0 ≤ cfg.max_retries)
    (h : resumeGeneration env cfg md st tr fuel = some (res, st', tr')) :
    countR tr' ≤ countR tr + (cfg.max_retries.toNat + 1) := by
  unfold resumeGeneration at h
  dsimp only at h
  split at h
  · exact absurd h (by simp)
  · next heq =>
    simp only [Option.some_inj, Prod.mk.injEq] at h
    obtain ⟨-, -, h3⟩ := h
    rw [← h3]
    exact codePhase_count env reviews cfg _ _ _ tr fuel _ _ _ hA hm heq

theorem continue_flow_count (env : Env) (reviews : Nat → Review) (cfg : Config)
    (approved : Bool) (feedback : String) (st : FlowState) (fuel : Nat)
    (res : FlowResult) (st' : FlowState) (tr : List Call)
    (hA : ∀ k, env.reviewAttempts k = .ok (reviews k))
    (hm : 0 ≤ cfg.max_retries)
    (h : continue_plugin_generation env cfg approved feedback st fuel = some (res, st', tr)) :
    countR tr ≤ cfg.max_retries.toNat + 1 := by
  unfold continue_plugin_generation at h
  dsimp only at h
  repeat' split at h
  all_goals
    first
    | (simp only [Option.some_inj, Prod.mk.injEq] at h
       obtain ⟨-, -, h3⟩ := h
       subst h3
       simp only [countR_append, countR_cons, countR_nil, isRev_send, isRev_optimize,
         isRev_exists, Bool.false_eq_true, if_false]
       omega)
    | (have hb := resumeGeneration_count env reviews cfg _ _ _ fuel res st' tr hA hm h
       simp only [countR_append, countR_cons, countR_nil, isRev_send, isRev_optimize,
         isRev_exists, Bool.false_eq_true, if_false] at hb
       omega)

/-- C1: the review loop (shared by `generate_plugin_flow` and
`continue_plugin_generation` through `reviewPhase`) with a non-raising
reviewer performs at most `max_retries + 1` review evaluations when
`max_retries ≥ 0` and exits successfully exactly when some review within the
budget reaches `score ≥ threshold` with approval; for `max_retries = -1` it
terminates only on that success condition, and if the stubbed reviewer first
passes on (0-based) call `N` exactly `N + 1` evaluations occur; moreover
every terminated invocation of either flow carries at most `max_retries + 1`
review calls in its trace. -/
theorem review_loop_budget_and_success :
    (∀ (env : Env) (reviews : Nat → Review) (th m : Int) (strict : Bool) (fuel : Nat),
       (∀ k, env.reviewAttempts k = .ok (reviews k)) →
       (∀ j, ∃ c, env.fixes j = .ok c) →
       0 ≤ m → m.toNat ≤ fuel →
       ∃ r tr, reviewPhase env th m strict fuel = some (.ok r, tr) ∧
         countR tr ≤ m.toNat + 1 ∧
         (reviewPasses th r = true ↔
           ∃ i, i ≤ m.toNat ∧ reviewPasses th (reviews i) = true)) ∧
    (∀ (env : Env) (th : Int) (strict : Bool) (fuel : Nat) (r : Review) (tr : List Call),
       reviewPhase env th (-1) strict fuel = some (.ok r, tr) →
       reviewPasses th r = true) ∧
    (∀ (env : Env) (reviews : Nat → Review) (th : Int) (strict : Bool) (N fuel : Nat),
       (∀ k, env.reviewAttempts k = .ok (reviews k)) →
       (∀ j, ∃ c, env.fixes j = .ok c) →
       reviewPasses th (reviews N) = true →
       (∀ i, i < N → reviewPasses th (reviews i) = false) →
       N ≤ fuel →
       ∃ tr, reviewPhase env th (-1) strict fuel = some (.ok (reviews N), tr) ∧
         countR tr = N + 1) ∧
    (∀ (env : Env) (reviews : Nat → Review) (cfg : Config) (description : String)
       (event : Nat) (st : FlowState) (fuel : Nat) (res : FlowResult)
       (st' : FlowState) (tr : List Call),
       (∀ k, env.reviewAttempts k = .ok (reviews k)) →
       0 ≤ cfg.max_retries →
       generate_plugin_flow env cfg description event st fuel = some (res, st', tr) →
       countR tr ≤ cfg.max_retries.toNat + 1) ∧
    (∀ (env : Env) (reviews : Nat → Review) (cfg : Config) (approved : Bool)
       (feedback : String) (st : FlowState) (fuel : Nat) (res : FlowResult)
       (st' : FlowState) (tr : List Call),
       (∀ k, env.reviewAttempts k = .ok (reviews k)) →
       0 ≤ cfg.max_retries →
       continue_plugin_generation env cfg approved feedback st fuel = some (res, st', tr) →
       countR tr ≤ cfg.max_retries.toNat + 1) :=
  ⟨fun env reviews th m strict fuel hA hF hm hfuel =>
     reviewPhase_bounded_spec env reviews th m strict fuel hA hF hm hfuel,
   fun env th strict fuel r tr h =>
     reviewPhase_unlimited_only_pass env th strict fuel r tr h,
   fun env reviews th strict N fuel hA hF hN hpre hfuel =>
     reviewPhase_unlimited_first_pass env reviews th strict N fuel hA hF hN hpre hfuel,
   fun env reviews cfg description event st fuel res st' tr hA hm h =>
     generate_flow_count env reviews cfg description event st fuel res st' tr hA hm h,
   fun env reviews cfg approved feedback st fuel res st' tr hA hm h =>
     continue_flow_count env reviews cfg approved feedback st fuel res st' tr hA hm h⟩

theorem review_loop_budget_and_success_witness :
    (∃ tr, reviewPhase envLoop 80 (-1) true 5 = some (.ok (wReviews 1), tr) ∧
       countR tr = 1 + 1) ∧
    (∃ r tr, reviewPhase envLoop 80 3 true 5 = some (.ok r, tr) ∧
       countR tr ≤ (3 : Int).toNat + 1 ∧
       (reviewPasses 80 r = true ↔
         ∃ i, i ≤ (3 : Int).toNat ∧ reviewPasses 80 (wReviews i) = true)) :=
  ⟨review_loop_budget_and_success.2.2.1 envLoop wReviews 80 true 1 5
     (fun _ => rfl) (fun _ => ⟨"code2", rfl⟩) (by decide)
     (by intro i hi
         have h0 : i = 0 := by omega
         subst h0
         decide)
     (by omega),
   review_loop_budget_and_success.1 envLoop wReviews 80 3 true 5
     (fun _ => rfl) (fun _ => ⟨"code2", rfl⟩) (by omega) (by decide)⟩
